import Mathlib

/-
Verification of the streaming/dispatch subsystem of the misskey-ai client
(`misskey_ai/clients/misskey/streaming.py` and `clients/channels.py`).

The Python client is shallowly embedded as pure Lean functions over an explicit
client-state record.  Python exceptions become an explicit error value carried by
`MResult` (together with the state at the raise point, since Python exceptions do
not roll back mutations).  The outbound WebSocket traffic is recorded as a trace
of frames in the state, the transport's `ws_connect` as an attempt counter, and
`asyncio.sleep` backoffs as a log of sleep durations.  `uuid.uuid4()` is an
external source of fresh opaque identifiers; it is modelled as a counter held in
the state, so channel identifiers are natural numbers.
-/

/-- A Python `dict[str, str]`-style parameter mapping, as an association list. -/
abbrev Params : Type := List (String × String)

/-- First value bound to `k`, mirroring Python dict lookup. -/
def plookup (ps : Params) (k : String) : Option String :=
  (ps.find? (fun q => q.1 == k)).map (fun q => q.2)

/-- One inclusion of Python dict equality: every binding of `a` is in `b`. -/
def dictLe (a b : Params) : Bool :=
  a.all (fun kv => plookup b kv.1 == some kv.2)

/-- Python `==` on two dicts: same key set, same values (order-irrelevant). -/
def dictBeq (a b : Params) : Bool :=
  dictLe a b && dictLe b a

/-- `ChannelType` enum from `clients/channels.py`. -/
inductive ChannelType where
  | MAIN
  | HOME_TIMELINE
  | LOCAL_TIMELINE
  | HYBRID_TIMELINE
  | GLOBAL_TIMELINE
  | ANTENNA
  | CHAT_USER
deriving DecidableEq

/-- The `.value` string of each `ChannelType` member. -/
def ChannelType.value : ChannelType → String
  | .MAIN => "main"
  | .HOME_TIMELINE => "homeTimeline"
  | .LOCAL_TIMELINE => "localTimeline"
  | .HYBRID_TIMELINE => "hybridTimeline"
  | .GLOBAL_TIMELINE => "globalTimeline"
  | .ANTENNA => "antenna"
  | .CHAT_USER => "chatUser"

/-- Python `ChannelType(v)`: value lookup; `none` models the `ValueError` raised
on an unknown value. -/
def ChannelType.ofValue? (v : String) : Option ChannelType :=
  if v = "main" then some .MAIN
  else if v = "homeTimeline" then some .HOME_TIMELINE
  else if v = "localTimeline" then some .LOCAL_TIMELINE
  else if v = "hybridTimeline" then some .HYBRID_TIMELINE
  else if v = "globalTimeline" then some .GLOBAL_TIMELINE
  else if v = "antenna" then some .ANTENNA
  else if v = "chatUser" then some .CHAT_USER
  else none

/-- `ChannelSpec = str | tuple[str, dict]` from `clients/channels.py`. -/
inductive ChannelSpec where
  | plain (channelName : String)
  | withParams (channelName : String) (params : Params)
deriving DecidableEq

/-- `StreamingClient._channel_name`: `spec[0] if isinstance(spec, tuple) else str(spec)`. -/
def ChannelSpec.name : ChannelSpec → String
  | .plain v => v
  | .withParams v _ => v

/-- `spec[1] if isinstance(spec, tuple) else None` (used in `connect_once`). -/
def ChannelSpec.params? : ChannelSpec → Option Params
  | .plain _ => none
  | .withParams _ p => some p

/-- Python truthiness of a `ChannelSpec` (`if c and ...`): the empty string is
falsy, a tuple is always truthy. -/
def ChannelSpec.truthy : ChannelSpec → Bool
  | .plain v => v != ""
  | .withParams _ _ => true

/-- The argument type of `connect_channel` / `disconnect_channel`:
`channel: ChannelType | str`. -/
inductive ChannelArg where
  | typ (t : ChannelType)
  | str (v : String)

/-- `channel.value if isinstance(channel, ChannelType) else str(channel)`. -/
def ChannelArg.channelName : ChannelArg → String
  | .typ t => t.value
  | .str v => v

/-- Exceptions reaching the streaming client (`twipsybot/shared/exceptions.py`
plus builtin `ValueError`).  `WebSocketReconnectError` subclasses
`WebSocketConnectionError` in the source. -/
inductive StreamError where
  | valueError (msg : String)
  | wsConnectionError
  | wsReconnectError
deriving DecidableEq

/-- Python `except WebSocketConnectionError` matches the class and its subclass
`WebSocketReconnectError`. -/
def StreamError.isWSConnectionError : StreamError → Bool
  | .wsConnectionError => true
  | .wsReconnectError => true
  | .valueError _ => false

/-- A JSON text frame sent over the WebSocket (outbound trace). -/
inductive Frame where
  | connect (channel : String) (id : Nat) (params : Params)
  | disconnect (id : Nat)
deriving DecidableEq

/-- The `cachetools.TTLCache` used for `processed_events`, modelled per its
documented semantics: a key is a member while `now < insertion + ttl`; on
insertion expired entries are pruned and, when the capacity is exceeded, the
oldest-inserted entries are evicted first.  Entries are listed oldest first. -/
structure TTLCache where
  maxsize : Nat
  ttl : Nat
  entries : List (String × Nat)
deriving DecidableEq

/-- First entry stored under `k`. -/
def TTLCache.lookupEntry (c : TTLCache) (k : String) : Option (String × Nat) :=
  c.entries.find? (fun e => e.1 == k)

/-- `k in cache` at time `now`: present and not yet expired. -/
def TTLCache.contains (c : TTLCache) (now : Nat) (k : String) : Bool :=
  match c.lookupEntry k with
  | some e => decide (now < e.2 + c.ttl)
  | none => false

/-- Drop every expired entry (done by `TTLCache.__setitem__` before inserting). -/
def TTLCache.expire (c : TTLCache) (now : Nat) : TTLCache :=
  { c with entries := c.entries.filter (fun e => decide (now < e.2 + c.ttl)) }

/-- The entries surviving the start of `TTLCache.__setitem__` at time `now`:
expiry pruning followed by removal of any old entry under `k`. -/
def TTLCache.survivors (c : TTLCache) (now : Nat) (k : String) : List (String × Nat) :=
  (c.expire now).entries.filter (fun e => !(e.1 == k))

/-- The capacity bound of `Cache.__setitem__`: while the size would exceed
`maxsize`, `popitem()` evicts from the front (oldest inserted first). -/
def ttlCapped (maxsize : Nat) (es : List (String × Nat)) : List (String × Nat) :=
  if es.length ≤ maxsize then es else es.drop (es.length - maxsize)

/-- `cache[k] = True` at time `now`: expire, replace any entry under `k`, append
the new entry, then evict from the front (oldest first) down to `maxsize`. -/
def TTLCache.insert (c : TTLCache) (now : Nat) (k : String) : TTLCache :=
  { c with entries := ttlCapped c.maxsize (c.survivors now k ++ [(k, now)]) }

/-- `cache.clear()`. -/
def TTLCache.clear (c : TTLCache) : TTLCache :=
  { c with entries := [] }

/-- `aiohttp.ClientWebSocketResponse`, reduced to its `closed` flag. -/
structure WSConn where
  closed : Bool
deriving DecidableEq

/-- A value of the `self.channels` registry: `{"name": ..., "params": ...}`. -/
structure ChannelInfo where
  name : String
  params : Params
deriving DecidableEq

/-- An entry of `self._chat_channel_tasks`: an asyncio task handle for one chat
counterpart, reduced to its cancellation flag. -/
structure ChatTask where
  userId : String
  cancelled : Bool
deriving DecidableEq

/-- The mutable state of `StreamingClient`, plus observation traces: `sent`
(frames written to the socket), `ws_connect_attempts` (calls reaching the
transport's `ws_connect`) and `sleep_log` (backoff sleeps, in time units). -/
structure StreamingClient where
  instance_url : String
  access_token : String
  ws_connection : Option WSConn
  channels : List (Nat × ChannelInfo)
  processed_events : TTLCache
  running : Bool
  should_reconnect : Bool
  first_connection : Bool
  chat_channel_tasks : List ChatTask
  workers_running : Bool
  uuid_counter : Nat
  sent : List Frame
  ws_connect_attempts : Nat
  sleep_log : List Nat
  transport_session_open : Bool
deriving DecidableEq

/-- Result of a coroutine: a value or a raised exception, each together with the
client state at return/raise time (Python exceptions do not undo mutations). -/
inductive MResult (α : Type) where
  | ok (val : α) (s : StreamingClient)
  | err (e : StreamError) (s : StreamingClient)
deriving DecidableEq

/-- `self._ws_available`: `self.ws_connection and not self.ws_connection.closed`. -/
def ws_available (s : StreamingClient) : Bool :=
  match s.ws_connection with
  | some w => !w.closed
  | none => false

/-- Python `dict.__setitem__` on an insertion-ordered dict: overwrite in place if
the key exists, otherwise append. -/
def dictInsert (m : List (Nat × ChannelInfo)) (k : Nat) (v : ChannelInfo) :
    List (Nat × ChannelInfo) :=
  if m.any (fun e => e.1 == k) then m.map (fun e => if e.1 == k then (k, v) else e)
  else m ++ [(k, v)]

/-- The comprehension filter of `connect_channel`:
`ch_info.get("name") == channel_name and ch_info.get("params") == effective_params`. -/
def chMatches (channel_name : String) (effective_params : Params)
    (e : Nat × ChannelInfo) : Bool :=
  e.2.name == channel_name && dictBeq e.2.params effective_params

/-- The comprehension filter of `disconnect_channel`:
`ch_info.get("name") == channel_name`. -/
def chNameIs (channel_name : String) (e : Nat × ChannelInfo) : Bool :=
  e.2.name == channel_name

/-- `StreamingClient.connect_channel`.  The freshly generated uuid is drawn from
`uuid_counter` exactly where the source calls `uuid.uuid4()`. -/
def connect_channel (s : StreamingClient) (channel : ChannelArg)
    (params? : Option Params) : MResult Nat :=
  let channel_name := channel.channelName
  if channel_name = "" then .err (.valueError "channel name must not be empty") s
  else
    let effective_params := params?.getD []
    let existing_channels :=
      (s.channels.filter (chMatches channel_name effective_params)).map (fun e => e.1)
    match existing_channels with
    | ch_id :: _ => .ok ch_id s
    | [] =>
      let channel_id := s.uuid_counter
      let s1 := { s with uuid_counter := s.uuid_counter + 1 }
      if ws_available s1 = false then .err .wsConnectionError s1
      else
        let s2 := { s1 with
          sent := s1.sent ++ [Frame.connect channel_name channel_id effective_params] }
        .ok channel_id { s2 with
          channels := dictInsert s2.channels channel_id
            { name := channel_name, params := effective_params } }

/-- Loop body of `disconnect_channel`: send an unsubscribe frame if the socket is
available, then `del self.channels[channel_id]`. -/
def discStep (st : StreamingClient) (ch_id : Nat) : StreamingClient :=
  let st1 :=
    if ws_available st then { st with sent := st.sent ++ [Frame.disconnect ch_id] } else st
  { st1 with channels := st1.channels.filter (fun e => !(e.1 == ch_id)) }

/-- `StreamingClient.disconnect_channel`. -/
def disconnect_channel (s : StreamingClient) (channel : ChannelArg) : MResult Unit :=
  let channel_name := channel.channelName
  if channel_name = "" then .err (.valueError "channel name must not be empty") s
  else
    let channels_to_remove := (s.channels.filter (chNameIs channel_name)).map (fun e => e.1)
    .ok () (channels_to_remove.foldl discStep s)

/-- Loop body of `_disconnect_all_channels`: best-effort unsubscribe frame per
registered channel when the socket is available. -/
def discAllStep (st : StreamingClient) (e : Nat × ChannelInfo) : StreamingClient :=
  if ws_available st then { st with sent := st.sent ++ [Frame.disconnect e.1] } else st

/-- `StreamingClient._disconnect_all_channels`. -/
def _disconnect_all_channels (s : StreamingClient) : StreamingClient :=
  let s1 := s.channels.foldl discAllStep s
  { s1 with channels := [] }

/-- `StreamingClient._close_websocket`: close the socket if open, drop the handle. -/
def _close_websocket (s : StreamingClient) : StreamingClient :=
  { s with ws_connection := none }

/-- Modelled from the spec: `_ensure_workers_started` lives in the streaming
events mixin, which is not under src/; §4.1 has `connect_once` start the Worker
Pool idempotently (restarting when already running is a no-op). -/
def _ensure_workers_started (s : StreamingClient) : StreamingClient :=
  { s with workers_running := true }

/-- Modelled from the spec: `_stop_workers` lives in the streaming events mixin,
which is not under src/; §4.1 has `close` stop the workers (sentinel + join). -/
def _stop_workers (s : StreamingClient) : StreamingClient :=
  { s with workers_running := false }

/-- Modelled from the spec: `_cancel_chat_channel_tasks` lives in the streaming
events mixin, which is not under src/; §4.1 has `disconnect` cancel every
Chat-Channel task.  Each task handle is marked cancelled. -/
def _cancel_chat_channel_tasks (s : StreamingClient) : StreamingClient :=
  { s with chat_channel_tasks := s.chat_channel_tasks.map (fun t => { t with cancelled := true }) }

/-- `StreamingClient.disconnect`. -/
def disconnect (s : StreamingClient) : StreamingClient :=
  let s1 := { s with should_reconnect := false, running := false }
  let s2 := _cancel_chat_channel_tasks s1
  let s3 := _disconnect_all_channels s2
  let s4 := _close_websocket s3
  { s4 with processed_events := s4.processed_events.clear }

/-- `StreamingClient.close`: disconnect, stop workers, close the socket, close
the transport session, clear the dedup cache. -/
def close (s : StreamingClient) : StreamingClient :=
  let s1 := disconnect s
  let s2 := _stop_workers s1
  let s3 := _close_websocket s2
  let s4 := { s3 with transport_session_open := false }
  { s4 with processed_events := s4.processed_events.clear }

/-- `str.rstrip("/")`. -/
def rstripSlashes (x : String) : String :=
  ⟨(x.toList.reverse.dropWhile (fun c => c == '/')).reverse⟩

/-- Whitespace stripped by Python `str.strip()`. -/
def isSpaceChar (c : Char) : Bool :=
  c == ' ' || c == '\t' || c == '\n' || c == '\r' || c == '\x0b' || c == '\x0c'

/-- `str.strip()`. -/
def pyStrip (x : String) : String :=
  ⟨((x.toList.dropWhile isSpaceChar).reverse.dropWhile isSpaceChar).reverse⟩

/-- Does `pat` occur as a contiguous subsequence of `text`? -/
def listStartsWith : List Char → List Char → Bool
  | _, [] => true
  | [], _ :: _ => false
  | a :: as, b :: bs => a == b && listStartsWith as bs

/-- Occurrence of a pattern anywhere in a character list. -/
def containsSeq : List Char → List Char → Bool
  | [], pat => pat.isEmpty
  | a :: as, pat => listStartsWith (a :: as) pat || containsSeq as pat

/-- `"://" in raw`. -/
def hasSchemeSep (x : String) : Bool :=
  containsSeq x.toList [':', '/', '/']

/-- ASCII lowercasing of one character (`str.lower()` on scheme text). -/
def lowerChar (c : Char) : Char :=
  if 'A' ≤ c && c ≤ 'Z' then Char.ofNat (c.toNat + 32) else c

/-- The scheme `_connect_websocket` checks: strip, default to `https://` when no
separator is present, then the (lowercased) text before the first colon, which is
`urlsplit(raw).scheme` for the URL shapes involved. -/
def schemeOf (url : String) : String :=
  let raw := rstripSlashes (pyStrip url)
  let raw2 := if hasSchemeSep raw then raw else "https://" ++ raw
  ⟨(raw2.toList.takeWhile (fun c => !(c == ':'))).map lowerChar⟩

/-- `StreamingClient._connect_websocket`.  `tr` is the transport: whether the
`n`-th `ws_connect` call (counted from 0) succeeds.  The scheme check precedes
any transport call; a transport failure cleans up and is wrapped into
`WebSocketConnectionError`. -/
def _connect_websocket (tr : Nat → Bool) (s : StreamingClient) : MResult Unit :=
  if schemeOf s.instance_url ≠ "https" then
    .err (.valueError "Insecure instance URL scheme is not allowed") s
  else
    let s1 := { s with ws_connect_attempts := s.ws_connect_attempts + 1 }
    if tr s.ws_connect_attempts then
      .ok () { s1 with ws_connection := some { closed := false } }
    else
      .err .wsConnectionError { s1 with ws_connection := none }

/-- `StreamingClient._normalize_channel_specs`:
`[c for c in (channels or []) if c and self._channel_name(c)]`. -/
def _normalize_channel_specs (channels : List ChannelSpec) : List ChannelSpec :=
  channels.filter (fun c => c.truthy && c.name != "")

/-- The body of the subscription loop in `connect_once` for one spec:
`try: await self.connect_channel(ChannelType(channel), params)` with a
`ValueError` fallback to the opaque string channel name. -/
def connect_spec (s : StreamingClient) (spec : ChannelSpec) : MResult Nat :=
  match ChannelType.ofValue? spec.name with
  | some ct =>
    match connect_channel s (.typ ct) spec.params? with
    | .err (.valueError _) s1 => connect_channel s1 (.str spec.name) spec.params?
    | r0 => r0
  | none => connect_channel s (.str spec.name) spec.params?

/-- The per-spec subscription loop of `connect_once`. -/
def subscribe_specs : StreamingClient → List ChannelSpec → MResult Unit
  | s, [] => .ok () s
  | s, spec :: rest =>
    match connect_spec s spec with
    | .ok _ s1 => subscribe_specs s1 rest
    | .err e s1 => .err e s1

/-- `StreamingClient.connect_once`. -/
def connect_once (tr : Nat → Bool) (s : StreamingClient)
    (channels : List ChannelSpec) : MResult Unit :=
  if s.running then .ok () s
  else
    let s1 := { s with running := true }
    let s2 := _ensure_workers_started s1
    match _connect_websocket tr s2 with
    | .err e s3 => .err e s3
    | .ok _ s3 =>
      let requested := _normalize_channel_specs channels
      let requested2 :=
        if requested.any (fun sp => sp.name == ChannelType.MAIN.value) then requested
        else .plain ChannelType.MAIN.value :: requested
      match subscribe_specs s3 requested2 with
      | .err e s4 => .err e s4
      | .ok _ s4 =>
        if s4.first_connection then .ok () { s4 with first_connection := false }
        else .ok () s4

/-- Modelled from the spec: `WS_MAX_RETRIES` is defined in `shared/constants.py`,
which is not under src/; §8 fixes it to 3. -/
def WS_MAX_RETRIES : Nat := 3

/-- Outcome of `connect`: normal return, raised exception, or out of fuel (the
source loop has no bound of its own). -/
inductive ConnectOutcome where
  | done (s : StreamingClient)
  | raised (e : StreamError) (s : StreamingClient)
  | fuelOut
deriving DecidableEq

/-- The `while self.should_reconnect` loop of `StreamingClient.connect`.
`listen` abstracts `_listen_messages` (driven by inbound network traffic);
`retry_count` is reset to 0 after a successful `connect_once` and before
listening, exactly as in the source. -/
def connect_aux (tr : Nat → Bool) (listen : StreamingClient → MResult Unit)
    (reconnect : Bool) (specs : List ChannelSpec) :
    Nat → StreamingClient → Nat → ConnectOutcome
  | 0, _, _ => .fuelOut
  | fuel + 1, s, retry_count =>
    if s.should_reconnect then
      match connect_once tr s specs with
      | .err e s1 =>
        if e.isWSConnectionError then
          if !reconnect || WS_MAX_RETRIES ≤ retry_count + 1 then .raised e s1
          else
            connect_aux tr listen reconnect specs fuel
              { s1 with running := false, channels := [], sleep_log := s1.sleep_log ++ [3] }
              (retry_count + 1)
        else .raised e s1
      | .ok _ s1 =>
        match listen s1 with
        | .ok _ s2 => .done s2
        | .err e s2 =>
          if e.isWSConnectionError then
            if !reconnect || WS_MAX_RETRIES ≤ 1 then .raised e s2
            else
              connect_aux tr listen reconnect specs fuel
                { s2 with running := false, channels := [], sleep_log := s2.sleep_log ++ [3] }
                1
          else .raised e s2
    else .done s

/-- `StreamingClient.connect`. -/
def connect (tr : Nat → Bool) (listen : StreamingClient → MResult Unit)
    (fuel : Nat) (s : StreamingClient) (channels : List ChannelSpec)
    (reconnect : Bool) : ConnectOutcome :=
  let s1 := { s with should_reconnect := reconnect }
  let specs := _normalize_channel_specs channels
  connect_aux tr listen reconnect specs fuel s1 0

/-- Modelled from the spec: the dedup gate before handling an event lives in the
streaming events mixin, which is not under src/; §4.3 makes cache membership the
only gate before a freshly seen event is handled. -/
def shouldProcessEvent (c : TTLCache) (now : Nat) (id : String) : Bool :=
  !(c.contains now id)

/-- Modelled from the spec: recording a handled event identifier in the dedup
cache (events mixin, not under src/): `self.processed_events[id] = True`. -/
def markProcessed (c : TTLCache) (now : Nat) (id : String) : TTLCache :=
  c.insert now id

/-- A concrete client state used to instantiate the theorems. -/
def testClient : StreamingClient where
  instance_url := "https://example.test"
  access_token := "token"
  ws_connection := some { closed := false }
  channels := []
  processed_events := { maxsize := 100, ttl := 600, entries := [] }
  running := false
  should_reconnect := true
  first_connection := true
  chat_channel_tasks := [{ userId := "peer", cancelled := false }]
  workers_running := false
  uuid_counter := 0
  sent := []
  ws_connect_attempts := 0
  sleep_log := []
  transport_session_open := true

/-- Observations of a `connect` outcome: the raised error (if any) together with
the transport-attempt count, the backoff-sleep log and the outbound frame trace
of the final state; `none` when the loop ran out of fuel. -/
def outcomeObs (o : ConnectOutcome) :
    Option (Option StreamError × Nat × List Nat × List Frame) :=
  match o with
  | .done s => some (none, s.ws_connect_attempts, s.sleep_log, s.sent)
  | .raised e s => some (some e, s.ws_connect_attempts, s.sleep_log, s.sent)
  | .fuelOut => none

/-- Freshness of the identifier supply relative to the registry: every
registered key was drawn from an earlier counter value. -/
def keysBelow (s : StreamingClient) : Prop :=
  ∀ k ∈ s.channels.map Prod.fst, k < s.uuid_counter

/-- A concrete registry: two `antenna` subscriptions with different parameters
and one `main`. -/
def regSample : List (Nat × ChannelInfo) :=
  [(0, { name := "antenna", params := [("antennaId", "a")] }),
   (1, { name := "main", params := [] }),
   (2, { name := "antenna", params := [("antennaId", "b")] })]

theorem foldl_discAllStep_fields (l : List (Nat × ChannelInfo)) (st : StreamingClient) :
    (l.foldl discAllStep st).chat_channel_tasks = st.chat_channel_tasks ∧
    (l.foldl discAllStep st).ws_connection = st.ws_connection := by
  induction l generalizing st with
  | nil => exact ⟨rfl, rfl⟩
  | cons a l ih =>
    rw [List.foldl_cons]
    have hstep : (discAllStep st a).chat_channel_tasks = st.chat_channel_tasks ∧
        (discAllStep st a).ws_connection = st.ws_connection := by
      unfold discAllStep; split <;> exact ⟨rfl, rfl⟩
    have h := ih (discAllStep st a)
    exact ⟨h.1.trans hstep.1, h.2.trans hstep.2⟩

/-- C6: after `close()` — in particular following `connect_once()` and any number
of `connect_channel` calls — the channel registry is empty, the dedup cache is
empty, every chat-channel task has been cancelled, and the socket handle is
released (closed and dropped). -/
theorem close_clears_state (s : StreamingClient) :
    (close s).channels = [] ∧
    (close s).processed_events.entries = [] ∧
    ((close s).chat_channel_tasks.all (fun t => t.cancelled)) = true ∧
    (close s).ws_connection = none := by
  refine ⟨rfl, rfl, ?_, rfl⟩
  have h1 : (close s).chat_channel_tasks =
      (s.chat_channel_tasks.map (fun t => { t with cancelled := true })) := by
    show (_disconnect_all_channels
      (_cancel_chat_channel_tasks { s with should_reconnect := false, running := false })).chat_channel_tasks = _
    unfold _disconnect_all_channels
    exact (foldl_discAllStep_fields _ _).1
  rw [h1]
  simp

/-- C10: when a `(name, params)` pair is already recorded, `connect_channel`
returns the first matching subscription's identifier with the state unchanged —
no frame sent, no registry mutation, no error — with no assumption on socket
availability, because the duplicate check precedes the `_ws_available` check. -/
theorem duplicate_check_precedes_socket_check (s : StreamingClient) (name : String)
    (params? : Option Params) (entry : Nat × ChannelInfo) (rest : List (Nat × ChannelInfo))
    (hname : ¬(name = ""))
    (hex : s.channels.filter (chMatches name (params?.getD [])) = entry :: rest) :
    connect_channel s (.str name) params? = .ok entry.1 s := by
  simp [connect_channel, ChannelArg.channelName, hname, hex]

theorem duplicate_check_precedes_socket_check_witness :
    connect_channel
      { testClient with
        ws_connection := none,
        channels := [(7, { name := "main", params := [] })] }
      (.str "main") none = .ok 7
      { testClient with
        ws_connection := none,
        channels := [(7, { name := "main", params := [] })] } :=
  duplicate_check_precedes_socket_check _ "main" none
    (7, { name := "main", params := [] }) [] (by decide) (by decide)

/-- C5: with no live socket and no recorded subscription matching the given name
and parameters, `connect_channel` raises `WebSocketConnectionError` and leaves
the channel registry (and the outbound frame trace) unchanged. -/
theorem connect_channel_no_socket_error (s : StreamingClient) (name : String)
    (params? : Option Params)
    (hname : ¬(name = "")) (hws : ws_available s = false)
    (hex : s.channels.filter (chMatches name (params?.getD [])) = []) :
    ∃ s1, connect_channel s (.str name) params? = .err .wsConnectionError s1 ∧
      s1.channels = s.channels ∧ s1.sent = s.sent := by
  refine ⟨{ s with uuid_counter := s.uuid_counter + 1 }, ?_, rfl, rfl⟩
  have hws1 : ws_available { s with uuid_counter := s.uuid_counter + 1 } = false := hws
  simp [connect_channel, ChannelArg.channelName, hname, hex, hws1]

theorem connect_channel_no_socket_error_witness :
    ∃ s1, connect_channel { testClient with ws_connection := none } (.str "main") none =
        .err .wsConnectionError s1 ∧
      s1.channels = { testClient with ws_connection := none }.channels ∧
      s1.sent = { testClient with ws_connection := none }.sent :=
  connect_channel_no_socket_error { testClient with ws_connection := none } "main" none
    (by decide) (by decide) (by decide)

/-- C2 (code bug): with a transport that always fails and `WS_MAX_RETRIES = 3`,
`connect(reconnect=True)` makes exactly 3 connect attempts with a backoff sleep
of 3 time units between consecutive attempts, then raises
`WebSocketConnectionError` — but `connect(reconnect=False)` makes ZERO attempts
and returns normally, because `should_reconnect` is set to the `reconnect`
argument before the `while self.should_reconnect` loop, so the loop body (and
its `if not reconnect: raise`) is never reached.  The claim's (and §4.1's)
"single failed attempt raises immediately" is contradicted by the second
conjunct. -/
theorem connect_retry_behavior :
    outcomeObs (connect (fun _ => false) (fun st => .ok () st) 5 testClient [] true) =
      some (some .wsConnectionError, 3, [3, 3], []) ∧
    outcomeObs (connect (fun _ => false) (fun st => .ok () st) 5 testClient [] false) =
      some (none, 0, [], []) :=
  ⟨rfl, rfl⟩

/-- C3: a non-secure instance URL scheme makes `connect` fail on the first
iteration with the `ValueError("Insecure instance URL scheme is not allowed")`
configuration error: it is not caught by the reconnect loop (no retry, no
backoff sleep) and zero socket operations happen (no transport `ws_connect`
call, no frame sent). -/
theorem insecure_scheme_rejected (tr : Nat → Bool)
    (listen : StreamingClient → MResult Unit) (fuel : Nat) (s : StreamingClient)
    (channels : List ChannelSpec)
    (hrun : s.running = false) (hscheme : ¬(schemeOf s.instance_url = "https")) :
    ∃ s1, connect tr listen (fuel + 1) s channels true =
        .raised (.valueError "Insecure instance URL scheme is not allowed") s1 ∧
      s1.ws_connect_attempts = s.ws_connect_attempts ∧ s1.sent = s.sent ∧
      s1.sleep_log = s.sleep_log := by
  refine ⟨{ s with should_reconnect := true, running := true, workers_running := true },
    ?_, rfl, rfl, rfl⟩
  simp [connect, connect_aux, connect_once, _connect_websocket, _ensure_workers_started,
    hrun, hscheme, StreamError.isWSConnectionError]

theorem insecure_scheme_rejected_witness :
    ∃ s1, connect (fun _ => true) (fun st => .ok () st) 5
        { testClient with instance_url := "http://example.test" } [] true =
        .raised (.valueError "Insecure instance URL scheme is not allowed") s1 ∧
      s1.ws_connect_attempts = 0 ∧ s1.sent = [] ∧ s1.sleep_log = [] :=
  insecure_scheme_rejected (fun _ => true) (fun st => .ok () st) 4
    { testClient with instance_url := "http://example.test" } [] rfl (by decide)

theorem plookup_of_mem {p : Params} {k : String} {v : String}
    (hnd : (p.map Prod.fst).Nodup) (hm : (k, v) ∈ p) : plookup p k = some v := by
  induction p with
  | nil => cases hm
  | cons a p ih =>
    rw [List.map_cons, List.nodup_cons] at hnd
    rcases List.mem_cons.mp hm with h | h
    · subst h
      simp [plookup]
    · have hka : (a.1 == k) = false := by
        apply beq_eq_false_iff_ne.mpr
        intro he
        exact hnd.1 (he ▸ List.mem_map.mpr ⟨(k, v), h, rfl⟩)
      have := ih hnd.2 h
      simpa [plookup, List.find?_cons, hka] using this

theorem dictLe_refl (p : Params) (hnd : (p.map Prod.fst).Nodup) : dictLe p p = true := by
  unfold dictLe
  rw [List.all_eq_true]
  intro kv hm
  rw [plookup_of_mem hnd (by simpa using hm)]
  simp

theorem dictBeq_refl (p : Params) (hnd : (p.map Prod.fst).Nodup) : dictBeq p p = true := by
  unfold dictBeq
  rw [dictLe_refl p hnd]
  rfl

/-- C1: from a state with a live socket and no recorded `(name, params)` match,
two `connect_channel` calls with identical arguments return the same identifier
both times, send exactly one subscribe frame over the socket, and leave exactly
one registry entry for that `(name, params)` pair; the second call changes
nothing. -/
theorem connect_channel_idempotent (s : StreamingClient) (name : String) (q : Params)
    (hname : ¬(name = "")) (hws : ws_available s = true)
    (hq : (q.map Prod.fst).Nodup)
    (hex : s.channels.filter (chMatches name q) = [])
    (hfresh : s.channels.any (fun e => e.1 == s.uuid_counter) = false) :
    ∃ s1, connect_channel s (.str name) (some q) = .ok s.uuid_counter s1 ∧
      connect_channel s1 (.str name) (some q) = .ok s.uuid_counter s1 ∧
      s1.sent = s.sent ++ [Frame.connect name s.uuid_counter q] ∧
      (s1.channels.filter (chMatches name q)).length = 1 := by
  have hmatch : chMatches name q (s.uuid_counter, { name := name, params := q }) = true := by
    simp [chMatches, dictBeq_refl q hq]
  have hws1 : ws_available { s with uuid_counter := s.uuid_counter + 1 } = true := hws
  refine ⟨{ s with
      uuid_counter := s.uuid_counter + 1
      sent := s.sent ++ [Frame.connect name s.uuid_counter q]
      channels := s.channels ++ [(s.uuid_counter, { name := name, params := q })] },
    ?_, ?_, rfl, ?_⟩
  · simp [connect_channel, ChannelArg.channelName, hname, hex, hws1, dictInsert, hfresh]
  · simp [connect_channel, ChannelArg.channelName, hname, List.filter_append, hex, hmatch]
  · simp [List.filter_append, hex, hmatch]

theorem connect_channel_idempotent_witness :
    ∃ s1, connect_channel testClient (.str "homeTimeline") (some [("withRenotes", "true")]) =
        .ok testClient.uuid_counter s1 ∧
      connect_channel s1 (.str "homeTimeline") (some [("withRenotes", "true")]) =
        .ok testClient.uuid_counter s1 ∧
      s1.sent = testClient.sent ++
        [Frame.connect "homeTimeline" testClient.uuid_counter [("withRenotes", "true")]] ∧
      (s1.channels.filter (chMatches "homeTimeline" [("withRenotes", "true")])).length = 1 :=
  connect_channel_idempotent testClient "homeTimeline" [("withRenotes", "true")]
    (by decide) (by decide) (by decide) (by decide) (by decide)

theorem foldl_discStep (ids : List Nat) (st : StreamingClient)
    (hws : ws_available st = true) :
    ids.foldl discStep st =
      { st with
          sent := st.sent ++ ids.map Frame.disconnect
          channels := st.channels.filter (fun e => ids.all (fun i => !(e.1 == i))) } := by
  induction ids generalizing st with
  | nil =>
    simp
  | cons i ids ih =>
    rw [List.foldl_cons]
    have hstep : discStep st i =
        { st with
            sent := st.sent ++ [Frame.disconnect i]
            channels := st.channels.filter (fun e => !(e.1 == i)) } := by
      unfold discStep
      rw [if_pos hws]
    rw [hstep]
    have hws2 : ws_available
        { st with
            sent := st.sent ++ [Frame.disconnect i]
            channels := st.channels.filter (fun e => !(e.1 == i)) } = true := hws
    rw [ih _ hws2]
    simp only [StreamingClient.mk.injEq, List.map_cons, List.append_assoc,
      List.cons_append, List.nil_append, List.filter_filter, List.all_cons,
      true_and, and_true]
    apply List.filter_congr
    intro e _
    exact Bool.and_comm _ _

theorem key_inj {l : List (Nat × ChannelInfo)} (hnd : (l.map Prod.fst).Nodup)
    {a b : Nat × ChannelInfo} (ha : a ∈ l) (hb : b ∈ l) (hk : a.1 = b.1) : a = b := by
  induction l with
  | nil => cases ha
  | cons c l ih =>
    rw [List.map_cons, List.nodup_cons] at hnd
    rcases List.mem_cons.mp ha with ha1 | ha1 <;> rcases List.mem_cons.mp hb with hb1 | hb1
    · exact ha1.trans hb1.symm
    · subst ha1
      exact absurd (hk ▸ List.mem_map.mpr ⟨b, hb1, rfl⟩) hnd.1
    · subst hb1
      exact absurd (hk ▸ List.mem_map.mpr ⟨a, ha1, rfl⟩) hnd.1
    · exact ih hnd.2 ha1 hb1

/-- C4: with a live socket, `disconnect_channel(name)` removes every registry
entry with that name regardless of parameters, sends exactly one unsubscribe
frame per removed subscription (with that subscription's identifier), and leaves
the registry with zero entries for that name. -/
theorem disconnect_channel_removes_all (s : StreamingClient) (name : String)
    (hname : ¬(name = "")) (hws : ws_available s = true)
    (hnd : (s.channels.map Prod.fst).Nodup) :
    ∃ s1, disconnect_channel s (.str name) = .ok () s1 ∧
      s1.channels = s.channels.filter (fun e => !(chNameIs name e)) ∧
      s1.sent = s.sent ++
        (s.channels.filter (chNameIs name)).map (fun e => Frame.disconnect e.1) ∧
      s1.channels.filter (chNameIs name) = [] := by
  have hpt : ∀ e ∈ s.channels,
      (((s.channels.filter (chNameIs name)).map (fun e => e.1)).all
        (fun i => !(e.1 == i))) = !(chNameIs name e) := by
    intro e he
    by_cases hn : chNameIs name e = true
    · rw [hn]
      apply List.all_eq_false.mpr
      refine ⟨e.1, List.mem_map.mpr ⟨e, List.mem_filter.mpr ⟨he, hn⟩, rfl⟩, ?_⟩
      simp
    · have hn2 : chNameIs name e = false := by
        cases h2 : chNameIs name e
        · rfl
        · exact absurd h2 hn
      rw [hn2]
      apply List.all_eq_true.mpr
      intro i hi
      rcases List.mem_map.mp hi with ⟨e2, he2, rfl⟩
      have he2f := List.mem_filter.mp he2
      simp only [Bool.not_eq_true']
      apply beq_eq_false_iff_ne.mpr
      intro hkey
      have := key_inj hnd he he2f.1 hkey
      rw [this] at hn2
      rw [he2f.2] at hn2
      cases hn2
  have hfold := foldl_discStep ((s.channels.filter (chNameIs name)).map (fun e => e.1)) s hws
  have hch : s.channels.filter (fun e =>
      ((s.channels.filter (chNameIs name)).map (fun e => e.1)).all (fun i => !(e.1 == i)))
      = s.channels.filter (fun e => !(chNameIs name e)) := List.filter_congr hpt
  refine ⟨{ s with
      sent := s.sent ++
        (s.channels.filter (chNameIs name)).map (fun e => Frame.disconnect e.1)
      channels := s.channels.filter (fun e => !(chNameIs name e)) }, ?_, rfl, rfl, ?_⟩
  · simp only [disconnect_channel, ChannelArg.channelName, if_neg hname]
    rw [hfold, hch, List.map_map]
    rfl
  · rw [List.filter_filter]
    simp

theorem disconnect_channel_removes_all_witness :
    ∃ s1, disconnect_channel { testClient with channels := regSample } (.str "antenna") =
        .ok () s1 ∧
      s1.channels = regSample.filter (fun e => !(chNameIs "antenna" e)) ∧
      s1.sent = testClient.sent ++
        (regSample.filter (chNameIs "antenna")).map (fun e => Frame.disconnect e.1) ∧
      s1.channels.filter (chNameIs "antenna") = [] :=
  disconnect_channel_removes_all { testClient with channels := regSample } "antenna"
    (by decide) (by decide) (by decide)

theorem find?_append_of_none {l1 l2 : List (String × Nat)} {p : String × Nat → Bool}
    (h : ∀ e ∈ l1, p e = false) : (l1 ++ l2).find? p = l2.find? p := by
  induction l1 with
  | nil => rfl
  | cons a l ih =>
    rw [List.cons_append, List.find?_cons_of_neg]
    · exact ih (fun e he => h e (List.mem_cons_of_mem a he))
    · have ha := h a (List.mem_cons_self a l)
      simp [ha]

theorem survivors_key_free (c : TTLCache) (now : Nat) (k : String) :
    ∀ e ∈ c.survivors now k, ((fun e => e.1 == k) e) = false := by
  intro e he
  have := (List.mem_filter.mp he).2
  simpa using this

theorem markProcessed_lookup (c : TTLCache) (t0 : Nat) (id : String)
    (hmax : 1 ≤ c.maxsize) :
    (markProcessed c t0 id).lookupEntry id = some (id, t0) := by
  show ((markProcessed c t0 id).entries.find? (fun e => e.1 == id)) = some (id, t0)
  have hent : (markProcessed c t0 id).entries =
      ttlCapped c.maxsize (c.survivors t0 id ++ [(id, t0)]) := rfl
  rw [hent]
  unfold ttlCapped
  have hF := survivors_key_free c t0 id
  by_cases hlen : (c.survivors t0 id ++ [(id, t0)]).length ≤ c.maxsize
  · rw [if_pos hlen, find?_append_of_none hF]
    simp
  · rw [if_neg hlen, List.drop_append_eq_append_drop]
    have hn : (c.survivors t0 id ++ [(id, t0)]).length - c.maxsize ≤
        (c.survivors t0 id).length := by
      simp only [List.length_append, List.length_cons, List.length_nil]
      omega
    have h0 : (c.survivors t0 id ++ [(id, t0)]).length - c.maxsize -
        (c.survivors t0 id).length = 0 := by omega
    rw [h0, List.drop_zero]
    rw [find?_append_of_none (fun e he => hF e (List.drop_subset _ _ he))]
    simp

theorem markProcessed_mem_id {c : TTLCache} {t0 : Nat} {id : String}
    {e : String × Nat} (he : e ∈ (markProcessed c t0 id).entries)
    (hk : (e.1 == id) = true) : e = (id, t0) := by
  have hent : (markProcessed c t0 id).entries =
      ttlCapped c.maxsize (c.survivors t0 id ++ [(id, t0)]) := rfl
  rw [hent] at he
  unfold ttlCapped at he
  have hmem : e ∈ c.survivors t0 id ++ [(id, t0)] := by
    by_cases hlen : (c.survivors t0 id ++ [(id, t0)]).length ≤ c.maxsize
    · rw [if_pos hlen] at he
      exact he
    · rw [if_neg hlen] at he
      exact List.drop_subset _ _ he
  rcases List.mem_append.mp hmem with hm | hm
  · have hsf : (e.1 == id) = false := survivors_key_free c t0 id e hm
    rw [hk] at hsf
    cases hsf
  · simpa using hm

/-- C8: an identifier inserted into the dedup cache is not reprocessed while its
TTL has not expired, even when delivered again; after TTL expiry it is processed
again; and when an insertion makes the cache exceed its maximum size the
oldest-inserted entry is evicted first. -/
theorem dedup_cache_ttl_and_eviction :
    (∀ (c : TTLCache) (t0 t1 : Nat) (id : String), 1 ≤ c.maxsize →
        t1 < t0 + c.ttl → shouldProcessEvent (markProcessed c t0 id) t1 id = false) ∧
    (∀ (c : TTLCache) (t0 t2 : Nat) (id : String), t0 + c.ttl ≤ t2 →
        shouldProcessEvent (markProcessed c t0 id) t2 id = true) ∧
    (∀ (c : TTLCache) (now : Nat) (id : String), 1 ≤ c.maxsize →
        c.entries.length = c.maxsize →
        c.entries.all (fun e => !(e.1 == id)) = true →
        c.entries.all (fun e => decide (now < e.2 + c.ttl)) = true →
        (markProcessed c now id).entries = c.entries.drop 1 ++ [(id, now)]) := by
  refine ⟨?_, ?_, ?_⟩
  · intro c t0 t1 id hmax h
    unfold shouldProcessEvent TTLCache.contains
    rw [markProcessed_lookup c t0 id hmax]
    have httl : (markProcessed c t0 id).ttl = c.ttl := rfl
    rw [httl]
    simp [h]
  · intro c t0 t2 id h
    unfold shouldProcessEvent TTLCache.contains TTLCache.lookupEntry
    cases hf : (markProcessed c t0 id).entries.find? (fun e => e.1 == id) with
    | none => rfl
    | some e =>
      have hp := List.find?_some hf
      have hee : e = (id, t0) :=
        markProcessed_mem_id (List.mem_of_find?_eq_some hf) hp
      subst hee
      have httl : (markProcessed c t0 id).ttl = c.ttl := rfl
      rw [httl]
      simp [Nat.not_lt.mpr h]
  · intro c now id hmax hlen hfresh hlive
    have hsurv : c.survivors now id = c.entries := by
      unfold TTLCache.survivors TTLCache.expire
      have h1 : c.entries.filter (fun e => decide (now < e.2 + c.ttl)) = c.entries :=
        List.filter_eq_self.mpr (fun a ha => by
          have := List.all_eq_true.mp hlive a ha
          simpa using this)
      show (c.entries.filter (fun e => decide (now < e.2 + c.ttl))).filter
        (fun e => !(e.1 == id)) = c.entries
      rw [h1]
      exact List.filter_eq_self.mpr (fun a ha => by
        have := List.all_eq_true.mp hfresh a ha
        simpa using this)
    have hent : (markProcessed c now id).entries =
        ttlCapped c.maxsize (c.survivors now id ++ [(id, now)]) := rfl
    rw [hent, hsurv]
    unfold ttlCapped
    have hcond : ¬((c.entries ++ [(id, now)]).length ≤ c.maxsize) := by
      simp only [List.length_append, List.length_cons, List.length_nil]
      omega
    rw [if_neg hcond]
    have hdrop : (c.entries ++ [(id, now)]).length - c.maxsize = 1 := by
      simp only [List.length_append, List.length_cons, List.length_nil]
      omega
    rw [hdrop, List.drop_append_of_le_length (by omega)]

theorem dedup_cache_ttl_and_eviction_witness :
    shouldProcessEvent (markProcessed { maxsize := 2, ttl := 10, entries := [] } 0 "e1") 5 "e1"
      = false ∧
    shouldProcessEvent (markProcessed { maxsize := 2, ttl := 10, entries := [] } 0 "e1") 10 "e1"
      = true ∧
    (markProcessed { maxsize := 1, ttl := 10, entries := [("a", 0)] } 1 "b").entries =
      [("a", 0)].drop 1 ++ [("b", 1)] :=
  ⟨dedup_cache_ttl_and_eviction.1 { maxsize := 2, ttl := 10, entries := [] } 0 5 "e1"
      (by decide) (by decide),
   dedup_cache_ttl_and_eviction.2.1 { maxsize := 2, ttl := 10, entries := [] } 0 10 "e1"
      (by decide),
   dedup_cache_ttl_and_eviction.2.2 { maxsize := 1, ttl := 10, entries := [("a", 0)] } 1 "b"
      (by decide) (by decide) (by decide) (by decide)⟩

theorem ofValue?_value {v : String} {ct : ChannelType}
    (h : ChannelType.ofValue? v = some ct) : ct.value = v := by
  unfold ChannelType.ofValue? at h
  split_ifs at h with h1 h2 h3 h4 h5 h6 h7 <;> injection h with h <;>
    subst h <;> simp [ChannelType.value, *]

theorem connect_channel_valueError {s : StreamingClient} {arg : ChannelArg}
    {params? : Option Params} {m : String} {s1 : StreamingClient}
    (h : connect_channel s arg params? = .err (.valueError m) s1) : s1 = s := by
  simp only [connect_channel] at h
  by_cases hn : arg.channelName = ""
  · rw [if_pos hn] at h
    cases h
    rfl
  · rw [if_neg hn] at h
    cases hfe : s.channels.filter (chMatches arg.channelName (params?.getD [])) with
    | cons f fl =>
      rw [hfe] at h
      simp only [List.map_cons] at h
      cases h
    | nil =>
      rw [hfe] at h
      simp only [List.map_nil] at h
      by_cases hws : ws_available { s with uuid_counter := s.uuid_counter + 1 } = false
      · rw [if_pos hws] at h
        cases h
      · rw [if_neg hws] at h
        cases h

theorem connect_channel_ok_shape {s : StreamingClient} {arg : ChannelArg}
    {params? : Option Params} {r : Nat} {s1 : StreamingClient}
    (h : connect_channel s arg params? = .ok r s1) (hkb : keysBelow s) :
    (s1.channels = s.channels ∨
      s1.channels = s.channels ++
        [(s.uuid_counter, { name := arg.channelName, params := params?.getD [] })]) ∧
    keysBelow s1 ∧ s1.ws_connection = s.ws_connection ∧
    (∃ e ∈ s1.channels, e.2.name = arg.channelName) := by
  simp only [connect_channel] at h
  by_cases hn : arg.channelName = ""
  · rw [if_pos hn] at h
    cases h
  · rw [if_neg hn] at h
    cases hfe : s.channels.filter (chMatches arg.channelName (params?.getD [])) with
    | cons f fl =>
      rw [hfe] at h
      simp only [List.map_cons] at h
      cases h
      have hfm : f ∈ s.channels.filter (chMatches arg.channelName (params?.getD [])) := by
        rw [hfe]
        exact List.mem_cons_self f fl
      have hmem := List.mem_filter.mp hfm
      refine ⟨Or.inl rfl, hkb, rfl, ⟨f, hmem.1, ?_⟩⟩
      have hmatch := hmem.2
      unfold chMatches at hmatch
      have := (Bool.and_eq_true _ _).mp hmatch
      exact beq_iff_eq.mp this.1
    | nil =>
      rw [hfe] at h
      simp only [List.map_nil] at h
      by_cases hws : ws_available { s with uuid_counter := s.uuid_counter + 1 } = false
      · rw [if_pos hws] at h
        cases h
      · rw [if_neg hws] at h
        cases h
        have hany : s.channels.any (fun e => e.1 == s.uuid_counter) = false := by
          apply List.any_eq_false.mpr
          intro e he
          have hlt := hkb e.1 (List.mem_map.mpr ⟨e, he, rfl⟩)
          simp [Nat.ne_of_lt hlt]
        have hins : dictInsert s.channels s.uuid_counter
            { name := arg.channelName, params := params?.getD [] } =
            s.channels ++ [(s.uuid_counter,
              { name := arg.channelName, params := params?.getD [] })] := by
          unfold dictInsert
          rw [hany]
          simp
        constructor
        · right
          exact hins
        refine ⟨?_, rfl, ?_⟩
        · intro k hk
          rw [hins] at hk
          simp only [List.map_append, List.mem_append] at hk
          rcases hk with hk | hk
          · exact Nat.lt_trans (hkb k hk) (Nat.lt_succ_self _)
          · simp only [List.map_cons, List.map_nil, List.mem_cons] at hk
            rcases hk with hk | hk
            · subst hk
              exact Nat.lt_succ_self _
            · cases hk
        · rw [hins]
          exact ⟨(s.uuid_counter, { name := arg.channelName, params := params?.getD [] }),
            List.mem_append_right _ (List.mem_cons_self _ _), rfl⟩

theorem connect_spec_ok_shape {s : StreamingClient} {spec : ChannelSpec} {r : Nat}
    {s1 : StreamingClient} (h : connect_spec s spec = .ok r s1) (hkb : keysBelow s) :
    (s1.channels = s.channels ∨
      s1.channels = s.channels ++
        [(s.uuid_counter, { name := spec.name, params := spec.params?.getD [] })]) ∧
    keysBelow s1 ∧ s1.ws_connection = s.ws_connection ∧
    (∃ e ∈ s1.channels, e.2.name = spec.name) := by
  unfold connect_spec at h
  cases hov : ChannelType.ofValue? spec.name with
  | none =>
    rw [hov] at h
    have hr := connect_channel_ok_shape h hkb
    simpa only [ChannelArg.channelName] using hr
  | some ct =>
    rw [hov] at h
    simp only [] at h
    have hval := ofValue?_value hov
    cases hcc : connect_channel s (.typ ct) spec.params? with
    | ok v s2 =>
      rw [hcc] at h
      simp only [] at h
      cases h
      have hr := connect_channel_ok_shape hcc hkb
      simpa only [ChannelArg.channelName, hval] using hr
    | err e s2 =>
      rw [hcc] at h
      cases e with
      | valueError msg =>
        simp only [] at h
        have hs2 : s2 = s := connect_channel_valueError hcc
        subst hs2
        have hr := connect_channel_ok_shape h hkb
        simpa only [ChannelArg.channelName] using hr
      | wsConnectionError =>
        simp only [] at h
        cases h
      | wsReconnectError =>
        simp only [] at h
        cases h

theorem subscribe_specs_ok :
    ∀ (specs : List ChannelSpec) (s s1 : StreamingClient),
      subscribe_specs s specs = .ok () s1 → keysBelow s →
      keysBelow s1 ∧ s1.ws_connection = s.ws_connection ∧
      (∀ e ∈ s.channels, e ∈ s1.channels) ∧
      (s.channels ≠ [] → s1.channels.head? = s.channels.head?) ∧
      (∀ n, (∃ sp ∈ specs, sp.name = n) → ∃ e ∈ s1.channels, e.2.name = n) := by
  intro specs
  induction specs with
  | nil =>
    intro s s1 h hkb
    unfold subscribe_specs at h
    cases h
    refine ⟨hkb, rfl, fun e he => he, fun _ => rfl, ?_⟩
    rintro n ⟨sp, hsp, _⟩
    cases hsp
  | cons spec rest ih =>
    intro s s1 h hkb
    unfold subscribe_specs at h
    cases hcs : connect_spec s spec with
    | err e s2 =>
      rw [hcs] at h
      cases h
    | ok v s2 =>
      rw [hcs] at h
      have hshape := connect_spec_ok_shape hcs hkb
      obtain ⟨hch, hkb2, hws2, hex2⟩ := hshape
      have hrest := ih s2 s1 h hkb2
      obtain ⟨hkb1, hws1, hmem1, hhead1, hname1⟩ := hrest
      have hmem2 : ∀ e ∈ s.channels, e ∈ s2.channels := by
        intro e he
        rcases hch with hc | hc
        · rw [hc]
          exact he
        · rw [hc]
          exact List.mem_append_left _ he
      have hhead2 : s.channels ≠ [] → s2.channels.head? = s.channels.head? := by
        intro hne
        rcases hch with hc | hc
        · rw [hc]
        · rw [hc]
          cases hch2 : s.channels with
          | nil => exact absurd hch2 hne
          | cons a l => simp
      refine ⟨hkb1, hws1.trans hws2, fun e he => hmem1 e (hmem2 e he), ?_, ?_⟩
      · intro hne
        have hne2 : s2.channels ≠ [] := by
          rcases hch with hc | hc
          · rw [hc]
            exact hne
          · rw [hc]
            intro hcontra
            cases hch2 : s.channels with
            | nil => exact absurd hch2 hne
            | cons a l =>
              rw [hch2] at hcontra
              cases hcontra
        exact (hhead1 hne2).trans (hhead2 hne)
      · rintro n ⟨sp, hsp, hspn⟩
        rcases List.mem_cons.mp hsp with hsp1 | hsp1
        · subst hsp1
          obtain ⟨e, he, hen⟩ := hex2
          exact ⟨e, hmem1 e he, hen.trans hspn⟩
        · exact hname1 n ⟨sp, hsp1, hspn⟩

/-- C7: after every successful non-short-circuited `connect_once` (from a fresh
registry), a subscription named `main` is present in the registry; and when
`main` was not among the requested channel specs it is inserted first — the
registry's first entry is the `main` subscription, subscribed before every
requested channel. -/
theorem connect_once_main_first (tr : Nat → Bool) (s : StreamingClient)
    (specs : List ChannelSpec) (s1 : StreamingClient)
    (hrun : s.running = false) (hch : s.channels = [])
    (hscheme : schemeOf s.instance_url = "https")
    (htr : tr s.ws_connect_attempts = true)
    (hok : connect_once tr s specs = .ok () s1) :
    (∃ e ∈ s1.channels, e.2.name = "main") ∧
    ((_normalize_channel_specs specs).all (fun sp => !(sp.name == "main")) = true →
      ∃ id, s1.channels.head? = some (id, { name := "main", params := [] })) := by
  simp only [connect_once, hrun, _ensure_workers_started, _connect_websocket,
    hscheme, htr, ne_eq, Bool.false_eq_true, if_false, not_true_eq_false,
    ite_false, ite_true] at hok
  split at hok
  case _ e s4 heq => cases hok
  case _ val s4 hsub =>
    have hgoal : (∃ e ∈ s4.channels, e.2.name = "main") ∧
        ((_normalize_channel_specs specs).all (fun sp => !(sp.name == "main")) = true →
          ∃ id, s4.channels.head? = some (id, { name := "main", params := [] })) := by
      by_cases hany : (_normalize_channel_specs specs).any
          (fun sp => sp.name == ChannelType.MAIN.value) = true
      · simp only [hany, ite_true, if_true] at hsub
        have hkb2 : keysBelow { s with
            ws_connection := some { closed := false }
            running := true
            workers_running := true
            ws_connect_attempts := s.ws_connect_attempts + 1 } := by
          intro k hk
          simp only [hch, List.map_nil] at hk
          cases hk
        have hok2 := subscribe_specs_ok _ _ _ hsub hkb2
        obtain ⟨sp, hsp, hspn⟩ := List.any_eq_true.mp hany
        constructor
        · apply hok2.2.2.2.2 "main"
          refine ⟨sp, hsp, ?_⟩
          have : sp.name == "main" := hspn
          exact beq_iff_eq.mp this
        · intro hall
          exfalso
          have hd := List.all_eq_true.mp hall sp hsp
          have : sp.name == "main" := hspn
          rw [this] at hd
          cases hd
      · have hany2 : (_normalize_channel_specs specs).any
            (fun sp => sp.name == ChannelType.MAIN.value) = false := by
          cases h2 : (_normalize_channel_specs specs).any
              (fun sp => sp.name == ChannelType.MAIN.value)
          · rfl
          · exact absurd h2 hany
        simp only [hany2, Bool.false_eq_true, ite_false, if_false] at hsub
        rw [subscribe_specs] at hsub
        simp only [connect_spec, ChannelSpec.name, ChannelType.value,
          ChannelType.ofValue?, ChannelSpec.params?, ite_true, if_true,
          connect_channel, ChannelArg.channelName, Option.getD, hch,
          List.filter_nil, List.map_nil, ws_available, Bool.not_false,
          dictInsert, List.any_nil, Bool.false_eq_true, ite_false, if_false,
          List.nil_append] at hsub
        have hkb3 : keysBelow { s with
            ws_connection := some { closed := false }
            channels := [(s.uuid_counter, { name := "main", params := [] })]
            running := true
            workers_running := true
            uuid_counter := s.uuid_counter + 1
            sent := s.sent ++ [Frame.connect "main" s.uuid_counter []]
            ws_connect_attempts := s.ws_connect_attempts + 1 } := by
          intro k hk
          simp only [List.map_cons, List.map_nil, List.mem_cons,
            List.not_mem_nil, or_false] at hk
          subst hk
          exact Nat.lt_succ_self _
        have hok2 := subscribe_specs_ok _ _ _ hsub hkb3
        constructor
        · refine hok2.2.2.1 (s.uuid_counter, { name := "main", params := [] }) ?_
          |> fun hm => ⟨_, hm, rfl⟩
          exact List.mem_cons_self _ _
        · intro _
          refine ⟨s.uuid_counter, ?_⟩
          rw [hok2.2.2.2.1 (by intro hcontra; cases hcontra)]
          rfl
    constructor
    · split at hok <;> (cases hok; exact hgoal.1)
    · split at hok <;> (cases hok; exact hgoal.2)

theorem connect_once_main_first_witness :
    ∃ s1, connect_once (fun _ => true) testClient [ChannelSpec.plain "homeTimeline"] =
        MResult.ok () s1 ∧
      ((∃ e ∈ s1.channels, e.2.name = "main") ∧
        ((_normalize_channel_specs [ChannelSpec.plain "homeTimeline"]).all
            (fun sp => !(sp.name == "main")) = true →
          ∃ id, s1.channels.head? = some (id, { name := "main", params := [] }))) :=
  ⟨_, rfl, connect_once_main_first (fun _ => true) testClient
      [ChannelSpec.plain "homeTimeline"] _ rfl rfl (by decide) rfl rfl⟩

/-- C9: a requested channel spec whose name does not correspond to any
`ChannelType` enum value does not abort `connect_once`: the `ValueError`
fallback subscribes the channel under its opaque string name, and the
subscription is recorded in the registry like any other. -/
theorem unknown_channel_fallback (tr : Nat → Bool) (s : StreamingClient) (n : String)
    (hrun : s.running = false) (hch : s.channels = [])
    (hscheme : schemeOf s.instance_url = "https")
    (htr : tr s.ws_connect_attempts = true)
    (hn : ¬(n = "")) (hof : ChannelType.ofValue? n = none) :
    ∃ s1, connect_once tr s [ChannelSpec.plain n] = .ok () s1 ∧
      ∃ id, (id, { name := n, params := [] }) ∈ s1.channels := by
  have hnm : ¬(n = "main") := by
    intro he
    rw [he] at hof
    simp [ChannelType.ofValue?] at hof
  have hbe : (n == "") = false := beq_eq_false_iff_ne.mpr hn
  have hnmb : (n == "main") = false := beq_eq_false_iff_ne.mpr hnm
  have hmnb : (("main" : String) == n) = false :=
    beq_eq_false_iff_ne.mpr (fun he => hnm he.symm)
  have hfresh : (s.uuid_counter == s.uuid_counter + 1) = false := by
    simp
  have hofmain : ChannelType.ofValue? "main" = some ChannelType.MAIN := rfl
  by_cases hfc : s.first_connection = true
  · simp [connect_once, hrun, _ensure_workers_started, _connect_websocket,
        hscheme, htr, ne_eq, Bool.false_eq_true, if_false, not_true_eq_false,
        ite_false, ite_true, _normalize_channel_specs, List.filter,
        ChannelSpec.truthy, ChannelSpec.name, bne, hbe, Bool.not_false, Bool.and_true,
        Bool.and_self, List.any_cons, List.any_nil, ChannelType.value, hnmb,
        Bool.or_false, subscribe_specs, connect_spec, hofmain,
        ChannelSpec.params?, connect_channel, ChannelArg.channelName, Option.getD,
        hch, List.filter_nil, List.map_nil, ws_available, dictInsert, List.any_nil,
        List.nil_append, chMatches, hmnb, Bool.false_and, hof, hn, hfresh, hfc,
        List.filter_cons, List.map_cons, beq_self_eq_true]
  · simp [connect_once, hrun, _ensure_workers_started, _connect_websocket,
        hscheme, htr, ne_eq, Bool.false_eq_true, if_false, not_true_eq_false,
        ite_false, ite_true, _normalize_channel_specs, List.filter,
        ChannelSpec.truthy, ChannelSpec.name, bne, hbe, Bool.not_false, Bool.and_true,
        Bool.and_self, List.any_cons, List.any_nil, ChannelType.value, hnmb,
        Bool.or_false, subscribe_specs, connect_spec, hofmain,
        ChannelSpec.params?, connect_channel, ChannelArg.channelName, Option.getD,
        hch, List.filter_nil, List.map_nil, ws_available, dictInsert, List.any_nil,
        List.nil_append, chMatches, hmnb, Bool.false_and, hof, hn, hfresh, hfc,
        List.filter_cons, List.map_cons, beq_self_eq_true]

theorem unknown_channel_fallback_witness :
    ∃ s1, connect_once (fun _ => true) testClient [ChannelSpec.plain "someRoom"] =
        MResult.ok () s1 ∧
      ∃ id, (id, { name := "someRoom", params := [] }) ∈ s1.channels :=
  unknown_channel_fallback (fun _ => true) testClient "someRoom" rfl rfl (by decide) rfl
    (by decide) rfl
